import Mathlib

/-!
Verification development for the legacy-obit-scraper repository.

The definitions below are shallow embeddings of the Python sources:
  * `filter-results.py` — `NameMatcher.normalize_name`, `get_name_variations`,
    `check_name_match` (pure name-matching engine);
  * `main.py` — `search_legacy_obituary`, `save_progress`, `process_licenses`
    (synchronous fetch/retry loop and checkpointing);
  * `main-parallel.py` — `AsyncObituarySearcher.search_legacy_obituary`,
    `process_batch`, `filter_valid_rows`, `process_licenses_async`
    (concurrent batch fetcher).

Network I/O is modelled by an environment `Nat → HttpEvent` giving, per retry
attempt, the response (status, body text, parsed `totalRecordCount`) or a
transport error.  Sleeps are recorded as a trace of durations in seconds so
that backoff schedules can be stated.  File I/O for the checkpoint store is
modelled as a list of elementary file operations applied to a path→content map.
-/

namespace LegacyObit

/-! ### Character-level helpers for `NameMatcher.normalize_name` -/

/-- The characters matched by Python's regex class `\s` on the ASCII range
(after `encode('ascii','ignore')` every character is ASCII). -/
def isPythonSpace (c : Char) : Bool :=
  c = ' ' || c = '\t' || c = '\n' || c = '\r' || c = '\x0b' || c = '\x0c'

/-- Characters of the separator class `[.\s-]` used by
`re.split(r'[.\s-]+', name)` in `filter-results.py` line 49. -/
def isSepChar (c : Char) : Bool :=
  c = '.' || c = '-' || isPythonSpace c

/-- Python `str.strip()`: drop leading and trailing whitespace. -/
def pyStrip (l : List Char) : List Char :=
  ((l.dropWhile isPythonSpace).reverse.dropWhile isPythonSpace).reverse

/-- Modelled from the library call `unicodedata.normalize('NFKD', name)`
(`filter-results.py` line 39), restricted to the Latin letters with diacritics
that occur in the name data: each precomposed letter decomposes into its base
letter followed by a combining mark; every other character is left as is. -/
def nfkdChar (c : Char) : List Char :=
  match c with
  | '\u00e1' => ['a', '\u0301'] | '\u00e0' => ['a', '\u0300'] | '\u00e2' => ['a', '\u0302']
  | '\u00e4' => ['a', '\u0308'] | '\u00e3' => ['a', '\u0303']
  | '\u00e9' => ['e', '\u0301'] | '\u00e8' => ['e', '\u0300'] | '\u00ea' => ['e', '\u0302']
  | '\u00eb' => ['e', '\u0308']
  | '\u00ed' => ['i', '\u0301'] | '\u00ec' => ['i', '\u0300'] | '\u00ee' => ['i', '\u0302']
  | '\u00ef' => ['i', '\u0308']
  | '\u00f3' => ['o', '\u0301'] | '\u00f2' => ['o', '\u0300'] | '\u00f4' => ['o', '\u0302']
  | '\u00f6' => ['o', '\u0308'] | '\u00f5' => ['o', '\u0303']
  | '\u00fa' => ['u', '\u0301'] | '\u00f9' => ['u', '\u0300'] | '\u00fb' => ['u', '\u0302']
  | '\u00fc' => ['u', '\u0308']
  | '\u00f1' => ['n', '\u0303'] | '\u00e7' => ['c', '\u0327'] | '\u00fd' => ['y', '\u0301']
  | _ => [c]

/-- `unicodedata.normalize('NFKD', name).encode('ascii','ignore').decode('ascii')`:
decompose, then drop every non-ASCII character (this deletes the combining
marks, i.e. strips accents). -/
def asciiIgnore (l : List Char) : List Char :=
  (l.flatMap nfkdChar).filter (fun c => c.toNat < 128)

/-- `re.split(r'[.\s-]+', name)` followed by dropping empty pieces: the
maximal runs of non-separator characters, in order. -/
def splitTokensAux : List Char → List Char → List (List Char)
  | [], acc => if acc.isEmpty then [] else [acc.reverse]
  | c :: rest, acc =>
    if isSepChar c then
      if acc.isEmpty then splitTokensAux rest []
      else acc.reverse :: splitTokensAux rest []
    else splitTokensAux rest (c :: acc)

def splitTokens (l : List Char) : List (List Char) :=
  splitTokensAux l []

/-- The suffix and prefix tokens dropped by `normalize_name`
(`filter-results.py` lines 45-46): `suffixes + prefixes`. -/
def stopTokens : List (List Char) :=
  ["jr".data, "sr".data, "ii".data, "iii".data, "iv".data, "v".data,
   "md".data, "phd".data, "rn".data, "np".data, "pa".data,
   "dr".data, "mr".data, "mrs".data, "ms".data, "miss".data]

/-- `' '.join(parts)`. -/
def joinSpace : List (List Char) → List Char
  | [] => []
  | [t] => t
  | t :: ts => t ++ ' ' :: joinSpace ts

/-- `NameMatcher.normalize_name` (`filter-results.py` lines 33-52): strip
accents via NFKD + ascii-ignore, lowercase, strip, split on runs of periods,
whitespace and hyphens, drop honorific/suffix tokens, and rejoin with single
spaces.  Empty input yields the empty string (the `if not name` early return
coincides with the pipeline's value on `""`). -/
def normalize_name (name : String) : String :=
  let ascii := asciiIgnore name.data
  let lowered := ascii.map Char.toLower
  let stripped := pyStrip lowered
  let parts := (splitTokens stripped).filter (fun p => !(stopTokens.contains p))
  String.mk (joinSpace parts)

/-- Python `c in s` for a single character. -/
def containsChar (s : String) (c : Char) : Bool :=
  s.data.contains c

/-- Python `str.split(sep)` for a one-character separator: splits at every
occurrence, keeping empty pieces. -/
def pySplitAux (sep : Char) : List Char → List Char → List (List Char)
  | [], acc => [acc.reverse]
  | c :: rest, acc =>
    if c = sep then acc.reverse :: pySplitAux sep rest []
    else pySplitAux sep rest (c :: acc)

def pySplit (s : String) (sep : Char) : List String :=
  (pySplitAux sep s.data []).map String.mk

/-- Python `str.replace(a, b)` for one-character arguments. -/
def replaceChar (s : String) (a b : Char) : String :=
  String.mk (s.data.map fun c => if c = a then b else c)

/-- De-duplication preserving first occurrences, as in
`filter-results.py` lines 89-95 (`seen` set plus ordered list). -/
def pydedupAux [BEq α] : List α → List α → List α
  | [], _ => []
  | x :: xs, seen =>
    if seen.contains x then pydedupAux xs seen
    else x :: pydedupAux xs (x :: seen)

def pydedup [BEq α] (l : List α) : List α :=
  pydedupAux l []

/-- `NameMatcher.get_name_variations` (`filter-results.py` lines 54-97):
the list built from the hyphen-handling branches followed by the normalized
pair itself, de-duplicated preserving order. -/
def get_name_variations (first_name last_name : String) : List (String × String) :=
  let norm_first := normalize_name first_name
  let norm_last := normalize_name last_name
  let v1 :=
    if containsChar norm_first '-' then
      (pySplit norm_first '-').map (fun part => (part, norm_last)) ++
        [(replaceChar norm_first '-' ' ', norm_last)]
    else []
  let v2 :=
    if containsChar norm_last '-' then
      (pySplit norm_last '-').map (fun part => (norm_first, part)) ++
        [(norm_first, replaceChar norm_last '-' ' ')]
    else []
  let v3 :=
    if containsChar norm_first '-' && containsChar norm_last '-' then
      (pySplit norm_first '-').flatMap
        (fun fp => (pySplit norm_last '-').map (fun lp => (fp, lp)))
    else []
  pydedup (v1 ++ v2 ++ v3 ++ [(norm_first, norm_last)])

/-! ### `NameMatcher.check_name_match` -/

/-- One obituary name record as consumed by `check_name_match`
(`filter-results.py` lines 104-108): the five fields are read with
`obit_name_obj.get(key, '')`, so an absent field is the empty string. -/
structure ObitName where
  firstName : String
  lastName : String
  middleName : String
  nickName : String
  maidenName : String
deriving DecidableEq

/-- The nested loops of `check_name_match` (e.g. lines 117-120): return at the
first license variation that equals some obituary-side variation; the recorded
reason carries that license pair. -/
def findMatchPair (lics obits : List (String × String)) : Option (String × String) :=
  lics.find? (fun a => obits.any (fun b => a == b))

/-- The audit message of `filter-results.py` line 146. -/
def noMatchMsg (lf ll obf obl : String) : String :=
  "No match found. License: " ++ lf ++ " " ++ ll ++ ", Obit: " ++ obf ++ " " ++ obl

/-- The source's early-return chain shape: four optional strategy results
tried in order, the first `some` returning through its result constructor,
with a fallback when all four are `none`. -/
def matchChain (nm : Bool × String) (e1 e2 e3 e4 : String × String → Bool × String)
    (f1 f2 f3 f4 : Option (String × String)) : Bool × String :=
  match f1 with
  | some p => e1 p
  | none =>
    match f2 with
    | some p => e2 p
    | none =>
      match f3 with
      | some p => e3 p
      | none =>
        match f4 with
        | some p => e4 p
        | none => nm

/-- `NameMatcher.check_name_match` (`filter-results.py` lines 99-146).
`none` models a falsy `obit_name_obj` (line 101).  The body is the source's
sequence of strategy blocks, each an early-`return` loop pair expressed by
`findMatchPair`, guarded by truthiness (non-emptiness) of the optional field:
exact on (firstName, lastName), middle-as-first, nickname-as-first,
maiden-as-last, falling through to the audit message of line 146. -/
def check_name_match (license_first license_last : String) :
    Option ObitName → Bool × String
  | none => (false, "No name object")
  | some o =>
    matchChain (false, noMatchMsg license_first license_last o.firstName o.lastName)
      (fun p => (true, "Exact match: " ++ p.1 ++ " " ++ p.2))
      (fun p => (true, "Middle name match: " ++ p.1 ++ " " ++ p.2))
      (fun p => (true, "Nickname match: " ++ p.1 ++ " " ++ p.2))
      (fun p => (true, "Maiden name match: " ++ p.1 ++ " " ++ p.2))
      (findMatchPair (get_name_variations license_first license_last)
        (get_name_variations o.firstName o.lastName))
      (if o.middleName != "" then
        findMatchPair (get_name_variations license_first license_last)
          (get_name_variations o.middleName o.lastName)
      else none)
      (if o.nickName != "" then
        findMatchPair (get_name_variations license_first license_last)
          (get_name_variations o.nickName o.lastName)
      else none)
      (if o.maidenName != "" then
        findMatchPair (get_name_variations license_first license_last)
          (get_name_variations o.firstName o.maidenName)
      else none)

/-! Specification-side model of the matcher, following spec paragraph 4.2: a
priority-ordered list of strategies, each carrying an enabling condition (the
optional field must be present), the variation-set comparison for its name
pair, and the reason to record; evaluation takes the first enabled success
and otherwise falls back to the no-match audit result. -/

/-- First-success evaluation of a guarded strategy list: each entry is
(enabled, comparison result, reason constructor); a disabled entry is
skipped, the first successful enabled entry returns, and the fallback
applies when the list is exhausted. -/
def guardChain (nm : Bool × String) :
    List (Bool × Option (String × String) × (String × String → Bool × String)) →
      Bool × String
  | [] => nm
  | (g, f, e) :: rest =>
    if g then
      match f with
      | some p => e p
      | none => guardChain nm rest
    else guardChain nm rest

/-- The matcher as spec paragraph 4.2 describes it: the fixed priority order
exact, middle-as-first (only if middleName present), nickname-as-first (only
if nickName present), maiden-as-last (only if maidenName present), first
success wins and governs the recorded reason, with the no-match fallback
carrying both input names. -/
def spec_match (lf ll : String) (o : ObitName) : Bool × String :=
  guardChain (false, noMatchMsg lf ll o.firstName o.lastName)
    [(true,
      findMatchPair (get_name_variations lf ll)
        (get_name_variations o.firstName o.lastName),
      fun p => (true, "Exact match: " ++ p.1 ++ " " ++ p.2)),
     (o.middleName != "",
      findMatchPair (get_name_variations lf ll)
        (get_name_variations o.middleName o.lastName),
      fun p => (true, "Middle name match: " ++ p.1 ++ " " ++ p.2)),
     (o.nickName != "",
      findMatchPair (get_name_variations lf ll)
        (get_name_variations o.nickName o.lastName),
      fun p => (true, "Nickname match: " ++ p.1 ++ " " ++ p.2)),
     (o.maidenName != "",
      findMatchPair (get_name_variations lf ll)
        (get_name_variations o.firstName o.maidenName),
      fun p => (true, "Maiden name match: " ++ p.1 ++ " " ++ p.2))]

theorem matchChain_eq_guardChain (nm : Bool × String)
    (e1 e2 e3 e4 : String × String → Bool × String)
    (g2 g3 g4 : Bool) (f1 f2 f3 f4 : Option (String × String)) :
    matchChain nm e1 e2 e3 e4 f1 (if g2 then f2 else none)
      (if g3 then f3 else none) (if g4 then f4 else none) =
    guardChain nm [(true, f1, e1), (g2, f2, e2), (g3, f3, e3), (g4, f4, e4)] := by
  cases g2 <;> cases g3 <;> cases g4 <;> cases f1 <;> cases f2 <;> cases f3 <;> cases f4 <;>
    rfl

/-! ### The fetchers of `main.py` and `main-parallel.py`

A fetch attempt is driven by an environment `Nat → HttpEvent` giving the
outcome of the HTTP request made on that attempt: either a response —
carrying the status code, the body text, and the `totalRecordCount` value
that `response.json()` would yield on a 200 — or a raised transport error.
The sleep calls are collected into a trace of durations in seconds. -/

structure HttpResponse where
  status : Nat
  body : String
  totalRecordCount : Nat
deriving DecidableEq

/-- One attempt's outcome in `main.py`: a response, or
`requests.exceptions.RequestException` (which covers timeouts). -/
inductive HttpEvent
  | resp (r : HttpResponse)
  | requestError
deriving DecidableEq

def toLowerStr (s : String) : String :=
  String.mk (s.data.map Char.toLower)

def isPrefixOfChars : List Char → List Char → Bool
  | [], _ => true
  | _ :: _, [] => false
  | a :: as, b :: bs => a = b && isPrefixOfChars as bs

def containsSub (pat : List Char) : List Char → Bool
  | [] => pat.isEmpty
  | c :: rest => isPrefixOfChars pat (c :: rest) || containsSub pat rest

/-- `"captcha" in response.text.lower()` (`main.py` line 62,
`main-parallel.py` line 104). -/
def hasCaptcha (body : String) : Bool :=
  containsSub "captcha".data (toLowerStr body).data

/-- The result of the synchronous fetcher: a normal return of the
`totalRecordCount > 0` boolean, or a raised exception message. -/
inductive SyncOutcome
  | result (found : Bool)
  | raised (msg : String)
deriving DecidableEq

/-- The retry loop of `search_legacy_obituary` (`main.py` lines 43-85),
with `fuel` the number of remaining iterations of
`for attempt in range(max_retries)` and `attempt` the current index, so the
source's `attempt < max_retries - 1` is `0 < fuel`.  Branches in source
order: 429 (backoff `(2 ** attempt) * 60` then retry, raise at the ceiling),
403 (raise immediately), captcha body (raise immediately), other non-200
(sleep 5 then retry, `return False` at the ceiling), 200 (return
`totalRecordCount > 0`); a request exception sleeps 5 and retries, returning
`False` at the ceiling.  The second component is the trace of sleeps. -/
def searchSyncAux (ev : Nat → HttpEvent) : Nat → Nat → SyncOutcome × List Nat
  | _, 0 => (.result false, [])
  | attempt, fuel + 1 =>
    match ev attempt with
    | .resp r =>
      if r.status = 429 then
        if 0 < fuel then
          let p := searchSyncAux ev (attempt + 1) fuel
          (p.1, 2 ^ attempt * 60 :: p.2)
        else (.raised "Rate limited - max retries exceeded", [])
      else if r.status = 403 then (.raised "Blocked by server", [])
      else if hasCaptcha r.body then (.raised "Captcha required", [])
      else if r.status ≠ 200 then
        if 0 < fuel then
          let p := searchSyncAux ev (attempt + 1) fuel
          (p.1, 5 :: p.2)
        else (.result false, [])
      else (.result (0 < r.totalRecordCount), [])
    | .requestError =>
      if 0 < fuel then
        let p := searchSyncAux ev (attempt + 1) fuel
        (p.1, 5 :: p.2)
      else (.result false, [])

/-- `search_legacy_obituary(first, last, max_retries)` of `main.py`:
the loop started at attempt 0 (the source default is `max_retries=3`). -/
def search_legacy_obituary (ev : Nat → HttpEvent) (max_retries : Nat) :
    SyncOutcome × List Nat :=
  searchSyncAux ev 0 max_retries

/-- One attempt's outcome in `main-parallel.py`: a response,
`aiohttp.ClientError`, or `asyncio.TimeoutError`. -/
inductive AsyncEvent
  | resp (r : HttpResponse)
  | clientError
  | timeoutError
deriving DecidableEq

/-- The result of the parallel fetcher's coroutine.  `success found` is a
return through the locked section of `main-parallel.py` lines 119-129 (which
increments `total_processed` and appends to `results` when found);
`bail` is any of the early `return False, row_data` paths (403 at line 100,
captcha at line 106, non-200 exhaustion at line 114, client error at
line 137, timeout at line 144, loop exhaustion at line 146), which touch no
shared state. -/
inductive AsyncOutcome
  | success (found : Bool)
  | bail
deriving DecidableEq

/-- The retry loop of `AsyncObituarySearcher.search_legacy_obituary`
(`main-parallel.py` lines 88-146).  Differences from the synchronous
variant, as in the source: the 429 branch sleeps `(2 ** attempt) * 30` and
retries unconditionally (even on the final attempt, after which the loop
exits and line 146 returns the not-found default), and 403/captcha return
`False, row_data` instead of raising. -/
def searchAsyncAux (ev : Nat → AsyncEvent) : Nat → Nat → AsyncOutcome × List Nat
  | _, 0 => (.bail, [])
  | attempt, fuel + 1 =>
    match ev attempt with
    | .resp r =>
      if r.status = 429 then
        let p := searchAsyncAux ev (attempt + 1) fuel
        (p.1, 2 ^ attempt * 30 :: p.2)
      else if r.status = 403 then (.bail, [])
      else if hasCaptcha r.body then (.bail, [])
      else if r.status ≠ 200 then
        if 0 < fuel then
          let p := searchAsyncAux ev (attempt + 1) fuel
          (p.1, 5 :: p.2)
        else (.bail, [])
      else (.success (0 < r.totalRecordCount), [])
    | .clientError =>
      if 0 < fuel then
        let p := searchAsyncAux ev (attempt + 1) fuel
        (p.1, 5 :: p.2)
      else (.bail, [])
    | .timeoutError =>
      if 0 < fuel then
        let p := searchAsyncAux ev (attempt + 1) fuel
        (p.1, 5 :: p.2)
      else (.bail, [])

/-- `AsyncObituarySearcher.search_legacy_obituary` started at attempt 0
(the class default is `max_retries=3`). -/
def async_search_legacy_obituary (ev : Nat → AsyncEvent) (max_retries : Nat) :
    AsyncOutcome × List Nat :=
  searchAsyncAux ev 0 max_retries

/-! ### Row eligibility (`main.py` lines 133-157, `main-parallel.py`
`filter_valid_rows` lines 189-215 and `process_batch` lines 151-157) -/

/-- One input row, restricted to the three fields the core reads
(`Expiration Date`, `First Name`, `Last Name`); all other columns are
opaque passthrough data. -/
structure Row where
  firstName : String
  lastName : String
  expirationDate : String
deriving DecidableEq

def digitsValAux : List Char → Nat → Option Nat
  | [], acc => some acc
  | c :: rest, acc =>
    if c.isDigit then digitsValAux rest (acc * 10 + (c.toNat - '0'.toNat))
    else none

/-- Python `int(s)` as used on date components: optional surrounding
whitespace, an optional sign, then a non-empty digit string; anything else
raises `ValueError` (modelled as `none`). -/
def pyInt (s : String) : Option Int :=
  match pyStrip s.data with
  | [] => none
  | '-' :: rest =>
    match rest with
    | [] => none
    | _ => (digitsValAux rest 0).map (fun n => -(n : Int))
  | '+' :: rest =>
    match rest with
    | [] => none
    | _ => (digitsValAux rest 0).map (fun n => (n : Int))
  | l => (digitsValAux l 0).map (fun n => (n : Int))

/-- Python `s.split(sep)[-1]`. -/
def lastPiece (s : String) (sep : Char) : String :=
  (pySplit s sep).getLastD ""

/-- The year extraction of `main.py` lines 134-147 /
`main-parallel.py` lines 194-207: strip the `Expiration Date` field; an
empty field is skipped; if it contains a slash, `int` of the last
slash-component; otherwise if it contains a hyphen, `int` of the last
hyphen-component; otherwise skip; an `int` failure skips. -/
def expiration_year (exp_date : String) : Option Int :=
  let s := String.mk (pyStrip exp_date.data)
  if s = "" then none
  else if containsChar s '/' then pyInt (lastPiece s '/')
  else if containsChar s '-' then pyInt (lastPiece s '-')
  else none

/-- The expiration-date portion of the eligibility filter: the row survives
`main.py` lines 133-151 / `filter_valid_rows` exactly when a year was
extracted and `year <= 2023` does not hold. -/
def passes_expiration_filter (exp_date : String) : Bool :=
  match expiration_year exp_date with
  | none => false
  | some y => 2023 < y

/-- The name-field check of `main.py` lines 153-157 /
`main-parallel.py` lines 152-157: both stripped names non-empty and at
least 2 characters. -/
def namesOk (r : Row) : Bool :=
  let fn := String.mk (pyStrip r.firstName.data)
  let ln := String.mk (pyStrip r.lastName.data)
  !(fn = "") && !(ln = "") && !(fn.length < 2) && !(ln.length < 2)

/-! ### The synchronous processing loop (`main.py` `process_licenses`,
lines 111-203) -/

/-- One `save_progress` call's payload (`main.py` lines 87-99): the index,
the counters passed as `additional_data`, the optional `error` string, and
the `completed` flag. -/
structure SaveRec where
  lastProcessedIndex : Nat
  totalFound : Nat
  totalProcessed : Nat
  errorMsg : Option String
  completed : Bool
deriving DecidableEq

/-- Observable state of one `process_licenses` run: the counters, the rows
written to the output CSV (with their originating index recorded for
bookkeeping), the sequence of `save_progress` calls, and the indices on
which the fetcher was invoked. -/
structure ProcSt where
  totalFound : Nat
  totalProcessed : Nat
  written : List (Nat × Row)
  saves : List SaveRec
  attempted : List Nat
deriving DecidableEq

/-- The row loop of `process_licenses` (`main.py` lines 129-193), over the
enumerated rows.  In source order: skip when `idx < start_idx`; skip on the
expiration-date filter; skip on the name check; otherwise call the fetcher —
a raised exception is caught, progress is saved with the error recorded, and
the function returns `False` without touching the remaining rows; a normal
result increments `total_processed`, on `found` writes the row and increments
`total_found`, and saves progress every 10 processed rows. -/
def processLoop (env : Nat → Nat → HttpEvent) (max_retries start_idx : Nat) :
    List (Nat × Row) → ProcSt → Bool × ProcSt
  | [], st => (true, st)
  | (idx, row) :: rest, st =>
    if idx < start_idx then processLoop env max_retries start_idx rest st
    else if !passes_expiration_filter row.expirationDate then
      processLoop env max_retries start_idx rest st
    else if !namesOk row then processLoop env max_retries start_idx rest st
    else
      match search_legacy_obituary (env idx) max_retries with
      | (.raised msg, _) =>
        (false,
          { st with
            attempted := st.attempted ++ [idx],
            saves := st.saves ++
              [⟨idx, st.totalFound, st.totalProcessed, some msg, false⟩] })
      | (.result found, _) =>
        let tp := st.totalProcessed + 1
        let tf := if found then st.totalFound + 1 else st.totalFound
        processLoop env max_retries start_idx rest
          { totalFound := tf,
            totalProcessed := tp,
            written := if found then st.written ++ [(idx, row)] else st.written,
            saves :=
              if tp % 10 = 0 then st.saves ++ [⟨idx, tf, tp, none, false⟩]
              else st.saves,
            attempted := st.attempted ++ [idx] }

/-- `process_licenses` (`main.py` lines 111-203): run the loop from the
loaded `start_idx` over the enumerated rows starting with fresh counters; on
normal completion append the final save at index `len(rows)` with
`completed=True` and return `True`. -/
def process_licenses (env : Nat → Nat → HttpEvent) (max_retries start_idx : Nat)
    (rows : List Row) : Bool × ProcSt :=
  match processLoop env max_retries start_idx rows.enum ⟨0, 0, [], [], []⟩ with
  | (false, st) => (false, st)
  | (true, st) =>
    (true,
      { st with
        saves := st.saves ++
          [⟨rows.length, st.totalFound, st.totalProcessed, none, true⟩] })

/-! ### The parallel scheduler (`main-parallel.py`) -/

/-- `filter_valid_rows` (`main-parallel.py` lines 189-215): enumerated rows
surviving the expiration-date filter. -/
def filter_valid_rows (rows : List Row) : List (Nat × Row) :=
  rows.enum.filter (fun p => passes_expiration_filter p.2.expirationDate)

/-- The resume filter of `process_licenses_async` line 236:
`[(idx, row) for idx, row in valid_rows if idx >= start_idx]`. -/
def resumed_rows (rows : List Row) (start_idx : Nat) : List (Nat × Row) :=
  (filter_valid_rows rows).filter (fun p => start_idx ≤ p.1)

/-- The shared mutable state of `AsyncObituarySearcher`
(`main-parallel.py` lines 23-25): counters plus the results buffer. -/
structure SearcherState where
  totalFound : Nat
  totalProcessed : Nat
  results : List Row
deriving DecidableEq

/-- The locked section of `main-parallel.py` lines 120-127, executed when a
task's fetch returns through the 200 path: increment `total_processed`, and
on `found` increment `total_found` and append the row to `results`. -/
def lockSection (st : SearcherState) (row : Row) (found : Bool) : SearcherState :=
  { totalFound := if found then st.totalFound + 1 else st.totalFound,
    totalProcessed := st.totalProcessed + 1,
    results := if found then st.results ++ [row] else st.results }

/-- The task list built by `process_batch` (`main-parallel.py` lines
148-163): one task per batch row passing the name check, in batch order. -/
def batchTasks (batch : List (Nat × Row)) : List (Nat × Row) :=
  batch.filter (fun p => namesOk p.2)

/-- The effect on shared state of the task at position `k` of the task list
completing its fetch: the 200 path runs the locked section; a bailing task
returns its `(False, row_data)` pair to `asyncio.gather`, which discards it,
touching no state. -/
def batchStep (env : Nat → Nat → AsyncEvent) (max_retries : Nat)
    (tasks : List (Nat × Row)) (s : SearcherState) (k : Nat) : SearcherState :=
  match tasks.get? k with
  | none => s
  | some t =>
    match async_search_legacy_obituary (env t.1) max_retries with
    | (.success found, _) => lockSection s t.2 found
    | (.bail, _) => s

/-- `process_batch` under a given interleaving.  The tasks of a batch run
concurrently; `completionOrder` lists the positions (into `batchTasks`) in
the order the tasks' fetches complete, each completion executing
`batchStep` on the shared state. -/
def process_batch (env : Nat → Nat → AsyncEvent) (max_retries : Nat)
    (batch : List (Nat × Row)) (completionOrder : List Nat)
    (st : SearcherState) : SearcherState :=
  completionOrder.foldl (batchStep env max_retries (batchTasks batch)) st

/-- The row contributed to the results buffer by the task at position `k`:
its row if its fetch succeeds with `found`, nothing otherwise. -/
def taskKeptRow (env : Nat → Nat → AsyncEvent) (max_retries : Nat)
    (tasks : List (Nat × Row)) (k : Nat) : Option Row :=
  match tasks.get? k with
  | none => none
  | some t =>
    match async_search_legacy_obituary (env t.1) max_retries with
    | (.success true, _) => some t.2
    | _ => none

/-- After a batch, `process_licenses_async` (lines 274-286) writes
`searcher.results` to the output file in list order and clears the buffer:
the rows appended to the file for this batch, in order. -/
def batch_file_writes (st : SearcherState) : List Row :=
  st.results

/-! ### The checkpoint store (`save_progress`, `main.py` lines 87-99 and
`main-parallel.py` lines 165-177)

File contents are an association of paths to content strings; the payload
strings stand for the serialized JSON documents. -/

inductive FileOp
  | truncate (path : String)
  | writeData (path : String) (data : String)
  | renameFile (src dst : String)
deriving DecidableEq

def FS : Type := List (String × String)

def fsGet (fs : FS) (p : String) : Option String :=
  match fs with
  | [] => none
  | e :: rest => if e.1 = p then some e.2 else fsGet rest p

def fsSet (fs : FS) (p v : String) : FS :=
  match fs with
  | [] => [(p, v)]
  | e :: rest => if e.1 = p then (p, v) :: rest else e :: fsSet rest p v

def fsRemove (fs : FS) (p : String) : FS :=
  match fs with
  | [] => []
  | e :: rest => if e.1 = p then fsRemove rest p else e :: fsRemove rest p

def applyOp (fs : FS) : FileOp → FS
  | .truncate p => fsSet fs p ""
  | .writeData p d => fsSet fs p (((fsGet fs p).getD "") ++ d)
  | .renameFile src dst =>
    match fsGet fs src with
    | some v => fsSet (fsRemove fs src) dst v
    | none => fs

def runOps (fs : FS) (ops : List FileOp) : FS :=
  ops.foldl applyOp fs

/-- `save_progress` (`main.py` lines 87-99, identical in
`main-parallel.py` lines 165-177) as file operations:
`open(progress_file, 'w')` truncates the checkpoint file in place, then
`json.dump` writes the serialized payload into it.  No temporary file and no
rename is involved. -/
def save_progress_ops (progress_file payload : String) : List FileOp :=
  [.truncate progress_file, .writeData progress_file payload]

/-- Modelled from the spec: the write-to-temp-then-rename save that
paragraph 4.4 prescribes (`save(key, state)` — atomic overwrite), absent
from the source: write the payload to a temporary file, then rename it over
the checkpoint file. -/
def atomic_save_ops (progress_file tmp_file payload : String) : List FileOp :=
  [.truncate tmp_file, .writeData tmp_file payload,
   .renameFile tmp_file progress_file]

/-! ## Theorems -/

/-! ### Lemmas on the normalizer -/

theorem contains_eq_false_of_not_mem {a : Char} {l : List Char} (h : a ∉ l) :
    l.contains a = false := by
  simpa using h

/-- Every character of every token produced by the separator split is a
non-separator. -/
theorem splitTokensAux_sep_false : ∀ (l acc : List Char),
    (∀ c ∈ acc, isSepChar c = false) →
    ∀ t ∈ splitTokensAux l acc, ∀ c ∈ t, isSepChar c = false := by
  intro l
  induction l with
  | nil =>
    intro acc hacc t ht c hc
    simp only [splitTokensAux] at ht
    split at ht
    · simp at ht
    · simp only [List.mem_singleton] at ht
      subst ht
      exact hacc c (List.mem_reverse.mp hc)
  | cons a l ih =>
    intro acc hacc t ht c hc
    simp only [splitTokensAux] at ht
    split at ht
    · split at ht
      · exact ih [] (by simp) t ht c hc
      · rcases List.mem_cons.mp ht with h | h
        · subst h
          exact hacc c (List.mem_reverse.mp hc)
        · exact ih [] (by simp) t h c hc
    · rename_i ha
      refine ih (a :: acc) ?_ t ht c hc
      intro d hd
      rcases List.mem_cons.mp hd with h | h
      · subst h
        simpa using ha
      · exact hacc d h

/-- A character of a space-join is the space or comes from a token. -/
theorem mem_joinSpace {c : Char} :
    ∀ (ts : List (List Char)), c ∈ joinSpace ts → c = ' ' ∨ ∃ t ∈ ts, c ∈ t := by
  intro ts
  induction ts with
  | nil =>
    intro h
    simp [joinSpace] at h
  | cons t ts ih =>
    intro h
    cases ts with
    | nil =>
      simp only [joinSpace] at h
      exact Or.inr ⟨t, by simp, h⟩
    | cons t2 ts2 =>
      simp only [joinSpace] at h
      rcases List.mem_append.mp h with h | h
      · exact Or.inr ⟨t, by simp, h⟩
      · rcases List.mem_cons.mp h with h | h
        · exact Or.inl h
        · rcases ih h with h | ⟨u, hu, hcu⟩
          · exact Or.inl h
          · exact Or.inr ⟨u, List.mem_cons_of_mem _ hu, hcu⟩

/-- `normalize_name` never emits a hyphen: the output's characters are
single spaces and token characters, and tokens contain no separator, the
hyphen included. -/
theorem normalize_name_no_hyphen (s : String) :
    containsChar (normalize_name s) '-' = false := by
  rw [containsChar]
  apply contains_eq_false_of_not_mem
  intro hmem
  simp only [normalize_name] at hmem
  rcases mem_joinSpace _ hmem with h | ⟨t, ht, hct⟩
  · exact absurd h (by decide)
  · have ht2 : t ∈ splitTokens (pyStrip ((asciiIgnore s.data).map Char.toLower)) :=
      (List.mem_filter.mp ht).1
    have := splitTokensAux_sep_false _ [] (by simp) t ht2 '-' hct
    exact absurd this (by decide)

/-- Since normalized names are hyphen-free, all three hyphen branches of
`get_name_variations` are vacuous and the result is the singleton. -/
theorem get_name_variations_eq (f l : String) :
    get_name_variations f l = [(normalize_name f, normalize_name l)] := by
  simp only [get_name_variations, normalize_name_no_hyphen, Bool.false_and,
    Bool.false_eq_true, if_false, List.nil_append]
  rfl

/-- Claim C10: for every input string, `normalize_name` returns a string
containing no hyphen (the separator split removes periods, whitespace and
hyphens, and tokens are rejoined with single spaces), and consequently
`get_name_variations` always returns exactly the one-element list of the
normalized pair: its hyphen-variation branches never contribute. -/
theorem C10_normalize_no_hyphen_variations_singleton :
    (∀ s : String, containsChar (normalize_name s) '-' = false) ∧
    ∀ f l : String,
      get_name_variations f l = [(normalize_name f, normalize_name l)] :=
  ⟨normalize_name_no_hyphen, get_name_variations_eq⟩

/-- Claim C2 (evaluation at the spec's own test vector): the code does NOT
produce hyphen-segment variations.  `get_name_variations "Anne-Marie" "Lee"`
is the singleton `[("anne marie", "lee")]` — `normalize_name` has already
replaced the hyphen by a space, so the hyphen branches do not fire and the
segment pair `("marie", "lee")` is absent — and `check_name_match` reports
no match against the record `{firstName: "Marie", lastName: "Lee"}`. -/
theorem C2_code_eval :
    get_name_variations "Anne-Marie" "Lee" = [("anne marie", "lee")] ∧
    ¬ ("marie", "lee") ∈ get_name_variations "Anne-Marie" "Lee" ∧
    check_name_match "Anne-Marie" "Lee" (some ⟨"Marie", "Lee", "", "", ""⟩) =
      (false, "No match found. License: Anne-Marie Lee, Obit: Marie Lee") := by
  refine ⟨by decide, by decide, by decide⟩

/-- Claim C6: `check_name_match` evaluates the four strategies in the fixed
priority order — exact, middle-as-first (only if middleName present),
nickname-as-first (only if nickName present), maiden-as-last (only if
maidenName present) — returns at the first success with the reason naming
that strategy, and otherwise returns the false result carrying both input
names: the source chain coincides with the spec's guarded first-success
evaluation for every candidate and record. -/
theorem C6_match_priority_order (lf ll : String) (o : ObitName) :
    check_name_match lf ll (some o) = spec_match lf ll o :=
  matchChain_eq_guardChain (false, noMatchMsg lf ll o.firstName o.lastName)
    (fun p => (true, "Exact match: " ++ p.1 ++ " " ++ p.2))
    (fun p => (true, "Middle name match: " ++ p.1 ++ " " ++ p.2))
    (fun p => (true, "Nickname match: " ++ p.1 ++ " " ++ p.2))
    (fun p => (true, "Maiden name match: " ++ p.1 ++ " " ++ p.2))
    (o.middleName != "") (o.nickName != "") (o.maidenName != "")
    (findMatchPair (get_name_variations lf ll)
      (get_name_variations o.firstName o.lastName))
    (findMatchPair (get_name_variations lf ll)
      (get_name_variations o.middleName o.lastName))
    (findMatchPair (get_name_variations lf ll)
      (get_name_variations o.nickName o.lastName))
    (findMatchPair (get_name_variations lf ll)
      (get_name_variations o.firstName o.maidenName))

/-- Claim C5 (evaluation at the failing input): for the supported format
`YYYY-MM-DD` the code extracts the trailing hyphen component — the day, not
the year — so the row `"2025-06-15"`, whose year 2025 exceeds the cutoff
2023, fails the filter (the code compares 15 against the cutoff), while the
`MM/DD/YYYY` form of the same date passes. -/
theorem C5_code_eval :
    passes_expiration_filter "2025-06-15" = false ∧
    expiration_year "2025-06-15" = some 15 ∧
    passes_expiration_filter "06/15/2025" = true ∧
    (2023 : Int) < 2025 := by
  refine ⟨by decide, by decide, by decide, by decide⟩

/-! ### Resume filter (C7) -/

/-- Invariant of the synchronous row loop: rows with index below the
checkpoint are never fetched and never written. -/
theorem processLoop_resume_invariant (env : Nat → Nat → HttpEvent) (m k : Nat) :
    ∀ (l : List (Nat × Row)) (st : ProcSt),
      st.attempted.all (fun i => k ≤ i) = true →
      st.written.all (fun p => k ≤ p.1) = true →
      (processLoop env m k l st).2.attempted.all (fun i => k ≤ i) = true ∧
      (processLoop env m k l st).2.written.all (fun p => k ≤ p.1) = true := by
  intro l
  induction l with
  | nil =>
    intro st h1 h2
    exact ⟨h1, h2⟩
  | cons p rest ih =>
    obtain ⟨idx, row⟩ := p
    intro st h1 h2
    simp only [processLoop]
    split
    · exact ih st h1 h2
    · rename_i hlt
      have hk : k ≤ idx := Nat.le_of_not_lt hlt
      split
      · exact ih st h1 h2
      · split
        · exact ih st h1 h2
        · split
          · refine ⟨?_, ?_⟩
            · simpa [List.all_append, hk] using h1
            · simpa using h2
          · rename_i found sl hsearch
            apply ih
            · simpa [List.all_append, hk] using h1
            · cases found
              · simpa using h2
              · simpa [List.all_append, hk] using h2

/-- Claim C7: with a loaded checkpoint `k`, neither variant processes a row
of original input index below `k`.  Synchronous variant: every index the
fetcher is invoked on, and every index written to the output, is at least
`k`.  Parallel variant: every row surviving the resume filter has index at
least `k`. -/
theorem C7_checkpoint_resume_idempotent :
    (∀ (env : Nat → Nat → HttpEvent) (m k : Nat) (rows : List Row),
      (process_licenses env m k rows).2.attempted.all (fun i => k ≤ i) = true ∧
      (process_licenses env m k rows).2.written.all (fun p => k ≤ p.1) = true) ∧
    ∀ (rows : List Row) (k : Nat),
      (resumed_rows rows k).all (fun p => k ≤ p.1) = true := by
  constructor
  · intro env m k rows
    obtain ⟨h1, h2⟩ := processLoop_resume_invariant env m k rows.enum
      ⟨0, 0, [], [], []⟩ (by simp) (by simp)
    rcases hp : processLoop env m k rows.enum ⟨0, 0, [], [], []⟩ with ⟨b, st⟩
    rw [hp] at h1 h2
    cases b
    · simp only [process_licenses, hp]
      exact ⟨h1, h2⟩
    · simp only [process_licenses, hp]
      exact ⟨h1, h2⟩
  · intro rows k
    rw [List.all_eq_true]
    intro p hp
    simpa using (List.mem_filter.mp hp).2

/-! ### Batch output ordering (C3) -/

/-- One completion's contribution to the results buffer. -/
theorem batchStep_results (env : Nat → Nat → AsyncEvent) (m : Nat)
    (tasks : List (Nat × Row)) (s : SearcherState) (k : Nat) :
    (batchStep env m tasks s k).results =
      s.results ++ (taskKeptRow env m tasks k).toList := by
  simp only [batchStep, taskKeptRow]
  cases hg : tasks.get? k with
  | none => simp
  | some t =>
    rcases hs : async_search_legacy_obituary (env t.1) m with ⟨o, sl⟩
    cases o with
    | success found =>
      cases found <;> simp [lockSection, hs]
    | bail => simp [hs]

/-- The results buffer after a batch is the prior buffer extended by the
kept rows in fetch-completion order. -/
theorem process_batch_results (env : Nat → Nat → AsyncEvent) (m : Nat)
    (batch : List (Nat × Row)) :
    ∀ (order : List Nat) (st : SearcherState),
      (process_batch env m batch order st).results =
        st.results ++
          order.filterMap (taskKeptRow env m (batchTasks batch)) := by
  intro order
  induction order with
  | nil =>
    intro st
    simp [process_batch]
  | cons k order ih =>
    intro st
    have hcons : process_batch env m batch (k :: order) st =
        process_batch env m batch order
          (batchStep env m (batchTasks batch) st k) := rfl
    rw [hcons, ih, batchStep_results, List.filterMap_cons]
    cases taskKeptRow env m (batchTasks batch) k <;> simp

/-- Claim C3, amended: within a batch the kept rows enter the shared
results buffer in fetch-completion order — the buffer the batch then writes
to the output file is the completion-order filter of the tasks, not the
input-order restriction. -/
theorem C3_amended_completion_order (env : Nat → Nat → AsyncEvent) (m : Nat)
    (batch : List (Nat × Row)) (order : List Nat) (st : SearcherState) :
    batch_file_writes (process_batch env m batch order st) =
      st.results ++ order.filterMap (taskKeptRow env m (batchTasks batch)) :=
  process_batch_results env m batch order st

def rowC3a : Row := ⟨"Alice", "Smith", "06/15/2025"⟩

def rowC3b : Row := ⟨"Brenda", "Jones", "06/15/2025"⟩

/-- Every fetch succeeds with one hit. -/
def envC3 : Nat → Nat → AsyncEvent := fun _ _ => .resp ⟨200, "", 1⟩

/-- Claim C3 is false on the code: for the two-row batch in input order
`[rowC3a, rowC3b]` with both fetches finding a match, the completion order
in which the second task finishes first yields the output order
`[rowC3b, rowC3a]`, which differs from the input order restricted to the
batch — nothing re-sorts the buffer by original index before writing. -/
theorem C3_counterexample_completion_order_leaks :
    (process_batch envC3 3 [(0, rowC3a), (1, rowC3b)] [1, 0] ⟨0, 0, []⟩).results =
      [rowC3b, rowC3a] ∧
    [rowC3b, rowC3a] ≠ [rowC3a, rowC3b] := by
  refine ⟨by decide, by decide⟩

/-! ### Checkpoint save atomicity (C9) -/

theorem fsGet_fsSet_self (fs : FS) (p v : String) :
    fsGet (fsSet fs p v) p = some v := by
  induction fs with
  | nil => simp [fsSet, fsGet]
  | cons e rest ih =>
    by_cases h : e.1 = p
    · simp [fsSet, fsGet, h]
    · simp [fsSet, fsGet, h, ih]

theorem fsGet_fsSet_ne (fs : FS) {q p : String} (v : String) (h : q ≠ p) :
    fsGet (fsSet fs q v) p = fsGet fs p := by
  induction fs with
  | nil => simp [fsSet, fsGet, h]
  | cons e rest ih =>
    by_cases he : e.1 = q
    · simp [fsSet, fsGet, he, h]
    · simp [fsSet, fsGet, he, ih]

theorem fsGet_fsRemove_ne (fs : FS) {q p : String} (h : q ≠ p) :
    fsGet (fsRemove fs q) p = fsGet fs p := by
  induction fs with
  | nil => simp [fsRemove]
  | cons e rest ih =>
    by_cases he : e.1 = q
    · have : ¬ e.1 = p := by
        rw [he]
        exact h
      simp [fsRemove, fsGet, he, this, ih, h]
    · simp [fsRemove, fsGet, he, ih]

def ckptPath : String := "licenses_progress.json"

def oldPayload : String := "serialized-progress-state-A"

def newPayload : String := "serialized-progress-state-B"

/-- Claim C9 is false on the code: `save_progress` truncates the checkpoint
file in place before writing, so interrupting the save of `newPayload` over
`oldPayload` right after the truncation (prefix of length 1 of its file
operations) leaves the checkpoint file empty — neither the complete
previous state nor the complete new state. -/
theorem C9_counterexample_truncate_window :
    fsGet (runOps [(ckptPath, oldPayload)]
        ((save_progress_ops ckptPath newPayload).take 1)) ckptPath = some "" ∧
    ("" : String) ≠ oldPayload ∧ ("" : String) ≠ newPayload := by
  refine ⟨by decide, by decide, by decide⟩

/-- Claim C9, amended: `save_progress` overwrites the checkpoint file in
place (truncate, then write — no temporary file, no rename); a completed
save does store the new state, but the interruption point between the
truncation and the write exposes an empty file.  By contrast the
write-to-temp-then-rename sequence the claim describes would satisfy it:
at every interruption point the checkpoint file holds the complete previous
or the complete new state. -/
theorem C9_amended_in_place_overwrite :
    (∀ (p old new : String) (fs : FS), fsGet fs p = some old →
      fsGet (runOps fs (save_progress_ops p new)) p = some new ∧
      fsGet (runOps fs ((save_progress_ops p new).take 1)) p = some "") ∧
    ∀ (p tmp old new : String) (fs : FS) (k : Nat), p ≠ tmp →
      fsGet fs p = some old →
      fsGet (runOps fs ((atomic_save_ops p tmp new).take k)) p = some old ∨
      fsGet (runOps fs ((atomic_save_ops p tmp new).take k)) p = some new := by
  constructor
  · intro p old new fs hold
    constructor
    · simp only [save_progress_ops, runOps, List.foldl_cons, List.foldl_nil, applyOp]
      rw [fsGet_fsSet_self]
      simp [fsGet_fsSet_self]
    · simp only [save_progress_ops, List.take_succ_cons, List.take_zero, runOps,
        List.foldl_cons, List.foldl_nil, applyOp]
      exact fsGet_fsSet_self fs p ""
  · intro p tmp old new fs k hne hold
    have hnp : tmp ≠ p := fun h => hne h.symm
    match k with
    | 0 =>
      left
      simpa [runOps] using hold
    | 1 =>
      left
      simp only [atomic_save_ops, List.take_succ_cons, List.take_zero, runOps,
        List.foldl_cons, List.foldl_nil, applyOp]
      rw [fsGet_fsSet_ne fs _ hnp]
      exact hold
    | 2 =>
      left
      simp only [atomic_save_ops, List.take_succ_cons, List.take_zero, runOps,
        List.foldl_cons, List.foldl_nil, applyOp]
      rw [fsGet_fsSet_ne _ _ hnp, fsGet_fsSet_ne fs _ hnp]
      exact hold
    | (n + 3) =>
      right
      have htake : (atomic_save_ops p tmp new).take (n + 3) = atomic_save_ops p tmp new := by
        apply List.take_of_length_le
        simp [atomic_save_ops]
      rw [htake]
      simp only [atomic_save_ops, runOps, List.foldl_cons, List.foldl_nil, applyOp]
      rw [fsGet_fsSet_self, fsGet_fsSet_self]
      simp [fsGet_fsSet_self]

/-- Witness instantiating the amended C9 theorem at concrete payloads: the
completed in-place save stores the new state, its truncation point exposes
the empty file, and the spec's atomic sequence interrupted after its second
operation still shows the complete previous state. -/
theorem C9_amended_in_place_overwrite_witness :
    (fsGet (runOps [(ckptPath, oldPayload)] (save_progress_ops ckptPath newPayload))
        ckptPath = some newPayload ∧
      fsGet (runOps [(ckptPath, oldPayload)]
        ((save_progress_ops ckptPath newPayload).take 1)) ckptPath = some "") ∧
    (fsGet (runOps [(ckptPath, oldPayload)]
        ((atomic_save_ops ckptPath "ckpt-tmp" newPayload).take 2)) ckptPath =
          some oldPayload ∨
      fsGet (runOps [(ckptPath, oldPayload)]
        ((atomic_save_ops ckptPath "ckpt-tmp" newPayload).take 2)) ckptPath =
          some newPayload) :=
  ⟨C9_amended_in_place_overwrite.1 ckptPath oldPayload newPayload
      [(ckptPath, oldPayload)] (by decide),
   C9_amended_in_place_overwrite.2 ckptPath "ckpt-tmp" oldPayload newPayload
      [(ckptPath, oldPayload)] 2 (by decide) (by decide)⟩

/-! ### Retry classification (C1, C4, C8) -/

/-- A soft-failure attempt for the synchronous fetcher: any response that is
not a 429, not a 403, not a 200, and whose body carries no captcha marker —
or a raised request exception. -/
def softFailEvent : HttpEvent → Bool
  | .requestError => true
  | .resp r =>
    (r.status != 429) && (r.status != 403) && (r.status != 200) && !hasCaptcha r.body

/-- A soft-failure attempt for the parallel fetcher: as `softFailEvent`,
with client errors and timeouts as the transport failures. -/
def softFailAsyncEvent : AsyncEvent → Bool
  | .clientError => true
  | .timeoutError => true
  | .resp r =>
    (r.status != 429) && (r.status != 403) && (r.status != 200) && !hasCaptcha r.body

/-- Synchronous fetcher on an all-429 stream: sleeps `2 ^ attempt * 60` for
every attempt before the last, then raises the rate-limit exception. -/
theorem searchSyncAux_rate_limited (ev : Nat → HttpEvent) :
    ∀ (fuel attempt : Nat),
      (∀ a, attempt ≤ a → a < attempt + fuel → ∃ r, ev a = .resp r ∧ r.status = 429) →
      1 ≤ fuel →
      searchSyncAux ev attempt fuel =
        (.raised "Rate limited - max retries exceeded",
          (List.range' attempt (fuel - 1)).map (fun a => 2 ^ a * 60)) := by
  intro fuel
  induction fuel with
  | zero =>
    intro attempt h h1
    omega
  | succ fuel ih =>
    intro attempt h _
    obtain ⟨r, hev, hst⟩ := h attempt (Nat.le_refl _) (by omega)
    simp only [searchSyncAux, hev, hst, if_pos]
    cases fuel with
    | zero => simp
    | succ fuel2 =>
      have hrec := ih (attempt + 1) (fun a ha1 ha2 => h a (by omega) (by omega)) (by omega)
      simp only [Nat.lt_irrefl, Nat.zero_lt_succ, if_pos, hrec]
      simp [List.range'_succ]

/-- Parallel fetcher on an all-429 stream: sleeps `2 ^ attempt * 30` on
every attempt — the final one included — and then bails with the not-found
default of line 146. -/
theorem searchAsyncAux_rate_limited (ev : Nat → AsyncEvent) :
    ∀ (fuel attempt : Nat),
      (∀ a, attempt ≤ a → a < attempt + fuel → ∃ r, ev a = .resp r ∧ r.status = 429) →
      searchAsyncAux ev attempt fuel =
        (.bail, (List.range' attempt fuel).map (fun a => 2 ^ a * 30)) := by
  intro fuel
  induction fuel with
  | zero =>
    intro attempt h
    rfl
  | succ fuel ih =>
    intro attempt h
    obtain ⟨r, hev, hst⟩ := h attempt (Nat.le_refl _) (by omega)
    have hrec := ih (attempt + 1) (fun a ha1 ha2 => h a (by omega) (by omega))
    simp only [searchAsyncAux, hev, hst, if_pos, hrec]
    simp [List.range'_succ]

/-- Synchronous fetcher on an all-soft-failure stream: sleeps 5 between
attempts and returns the not-found default on exhaustion. -/
theorem searchSyncAux_soft_fail (ev : Nat → HttpEvent) :
    ∀ (fuel attempt : Nat),
      (∀ a, attempt ≤ a → a < attempt + fuel → softFailEvent (ev a) = true) →
      searchSyncAux ev attempt fuel = (.result false, List.replicate (fuel - 1) 5) := by
  intro fuel
  induction fuel with
  | zero =>
    intro attempt h
    rfl
  | succ fuel ih =>
    intro attempt h
    have hsf := h attempt (Nat.le_refl _) (by omega)
    have hrec := ih (attempt + 1) (fun a ha1 ha2 => h a (by omega) (by omega))
    cases hev : ev attempt with
    | requestError =>
      simp only [searchSyncAux, hev]
      cases fuel with
      | zero => simp
      | succ fuel2 =>
        simp only [Nat.zero_lt_succ, if_pos, hrec]
        simp [List.replicate_succ]
    | resp r =>
      rw [hev] at hsf
      simp only [softFailEvent, Bool.and_eq_true, bne_iff_ne, Bool.not_eq_true] at hsf
      obtain ⟨⟨⟨h429, h403⟩, h200⟩, hcap⟩ := hsf
      have hcapf : hasCaptcha r.body = false := by simpa using hcap
      simp only [searchSyncAux, hev, if_neg h429, if_neg h403, hcapf,
        Bool.false_eq_true, if_false, ne_eq, h200, not_false_iff, if_pos]
      cases fuel with
      | zero => simp
      | succ fuel2 =>
        simp only [Nat.zero_lt_succ, if_pos, hrec]
        simp [List.replicate_succ]

/-- Parallel fetcher on an all-soft-failure stream: sleeps 5 between
attempts and bails (the not-found default) on exhaustion. -/
theorem searchAsyncAux_soft_fail (ev : Nat → AsyncEvent) :
    ∀ (fuel attempt : Nat),
      (∀ a, attempt ≤ a → a < attempt + fuel → softFailAsyncEvent (ev a) = true) →
      searchAsyncAux ev attempt fuel = (.bail, List.replicate (fuel - 1) 5) := by
  intro fuel
  induction fuel with
  | zero =>
    intro attempt h
    rfl
  | succ fuel ih =>
    intro attempt h
    have hsf := h attempt (Nat.le_refl _) (by omega)
    have hrec := ih (attempt + 1) (fun a ha1 ha2 => h a (by omega) (by omega))
    cases hev : ev attempt with
    | clientError =>
      simp only [searchAsyncAux, hev]
      cases fuel with
      | zero => simp
      | succ fuel2 =>
        simp only [Nat.zero_lt_succ, if_pos, hrec]
        simp [List.replicate_succ]
    | timeoutError =>
      simp only [searchAsyncAux, hev]
      cases fuel with
      | zero => simp
      | succ fuel2 =>
        simp only [Nat.zero_lt_succ, if_pos, hrec]
        simp [List.replicate_succ]
    | resp r =>
      rw [hev] at hsf
      simp only [softFailAsyncEvent, Bool.and_eq_true, bne_iff_ne, Bool.not_eq_true] at hsf
      obtain ⟨⟨⟨h429, h403⟩, h200⟩, hcap⟩ := hsf
      have hcapf : hasCaptcha r.body = false := by simpa using hcap
      simp only [searchAsyncAux, hev, if_neg h429, if_neg h403, hcapf,
        Bool.false_eq_true, if_false, ne_eq, h200, not_false_iff, if_pos]
      cases fuel with
      | zero => simp
      | succ fuel2 =>
        simp only [Nat.zero_lt_succ, if_pos, hrec]
        simp [List.replicate_succ]

/-- A raised fetch exception stops the synchronous loop: the remaining rows
are untouched, the error is recorded in a final save, and the loop returns
failure. -/
theorem processLoop_raised_stops (env : Nat → Nat → HttpEvent) (m k idx : Nat)
    (row : Row) (rest : List (Nat × Row)) (st : ProcSt) (msg : String) (sl : List Nat)
    (h1 : ¬ idx < k) (h2 : passes_expiration_filter row.expirationDate = true)
    (h3 : namesOk row = true)
    (h4 : search_legacy_obituary (env idx) m = (.raised msg, sl)) :
    processLoop env m k ((idx, row) :: rest) st =
      (false,
        { st with
          attempted := st.attempted ++ [idx],
          saves := st.saves ++
            [⟨idx, st.totalFound, st.totalProcessed, some msg, false⟩] }) := by
  simp [processLoop, h1, h2, h3, h4]

/-- A not-found fetch result lets the synchronous loop continue with the
remaining rows, the processed counter advanced. -/
theorem processLoop_soft_continue (env : Nat → Nat → HttpEvent) (m k idx : Nat)
    (row : Row) (rest : List (Nat × Row)) (st : ProcSt) (sl : List Nat)
    (h1 : ¬ idx < k) (h2 : passes_expiration_filter row.expirationDate = true)
    (h3 : namesOk row = true)
    (h4 : search_legacy_obituary (env idx) m = (.result false, sl)) :
    processLoop env m k ((idx, row) :: rest) st =
      processLoop env m k rest
        { totalFound := st.totalFound,
          totalProcessed := st.totalProcessed + 1,
          written := st.written,
          saves :=
            if (st.totalProcessed + 1) % 10 = 0 then
              st.saves ++ [⟨idx, st.totalFound, st.totalProcessed + 1, none, false⟩]
            else st.saves,
          attempted := st.attempted ++ [idx] } := by
  simp [processLoop, h1, h2, h3, h4]

/-- A bailing task leaves the shared state untouched, and the batch
continues with the remaining completions. -/
theorem process_batch_bail_skip (env : Nat → Nat → AsyncEvent) (m : Nat)
    (batch : List (Nat × Row)) (k : Nat) (order : List Nat) (st : SearcherState)
    (t : Nat × Row) (hg : (batchTasks batch).get? k = some t)
    (hb : (async_search_legacy_obituary (env t.1) m).1 = .bail) :
    process_batch env m batch (k :: order) st = process_batch env m batch order st := by
  have hstep : batchStep env m (batchTasks batch) st k = st := by
    simp only [batchStep, hg]
    rcases hs : async_search_legacy_obituary (env t.1) m with ⟨o, sl⟩
    rw [hs] at hb
    simp only at hb
    subst hb
    rfl
  rw [show process_batch env m batch (k :: order) st =
      process_batch env m batch order (batchStep env m (batchTasks batch) st k) from rfl,
    hstep]

def rowC1a : Row := ⟨"Carol", "White", "06/15/2025"⟩

def rowC1b : Row := ⟨"David", "Green", "06/15/2025"⟩

/-- Row 0 is blocked with 403 on every attempt; row 1 succeeds with one hit. -/
def envC1par : Nat → Nat → AsyncEvent := fun idx _ =>
  if idx = 0 then .resp ⟨403, "", 0⟩ else .resp ⟨200, "", 1⟩

/-- Claim C1 is false on the code: in `main-parallel.py` a 403 response is
not surfaced as an error — the task bails with the not-found default
`(False, row_data)` — and the run is not stopped: with row 0 blocked by 403
and row 1 succeeding, the batch still fetches row 1, counts it, and appends
it to the results; no error is recorded anywhere in the searcher state. -/
theorem C1_counterexample_parallel_403_not_run_stopping :
    async_search_legacy_obituary (envC1par 0) 3 = (.bail, []) ∧
    process_batch envC1par 3 [(0, rowC1a), (1, rowC1b)] [0, 1] ⟨0, 0, []⟩ =
      ⟨1, 1, [rowC1b]⟩ := by
  refine ⟨by decide, by decide⟩

/-- Claim C1, amended: in `main.py`, HTTP 403 (and a non-429, non-403
response whose body contains the challenge marker) is terminal — never
retried, raising `Blocked by server` / `Captcha required` with no backoff
sleep — and `process_licenses` catches the exception, saves progress with
the error recorded, and returns failure without attempting any further row.
In `main-parallel.py`, a 403 or captcha response is likewise never retried,
but the task returns the not-found default with no error, and the batch and
run continue with the remaining fetches. -/
theorem C1_amended_blocked_terminal_in_sync_only :
    (∀ (ev : Nat → HttpEvent) (m : Nat) (r : HttpResponse), 1 ≤ m →
      ev 0 = .resp r → r.status = 403 →
      search_legacy_obituary ev m = (.raised "Blocked by server", [])) ∧
    (∀ (ev : Nat → HttpEvent) (m : Nat) (r : HttpResponse), 1 ≤ m →
      ev 0 = .resp r → r.status ≠ 429 → r.status ≠ 403 → hasCaptcha r.body = true →
      search_legacy_obituary ev m = (.raised "Captcha required", [])) ∧
    (∀ (env : Nat → Nat → HttpEvent) (m k idx : Nat) (row : Row)
        (rest : List (Nat × Row)) (st : ProcSt) (msg : String) (sl : List Nat),
      ¬ idx < k → passes_expiration_filter row.expirationDate = true →
      namesOk row = true →
      search_legacy_obituary (env idx) m = (.raised msg, sl) →
      processLoop env m k ((idx, row) :: rest) st =
        (false,
          { st with
            attempted := st.attempted ++ [idx],
            saves := st.saves ++
              [⟨idx, st.totalFound, st.totalProcessed, some msg, false⟩] })) ∧
    (∀ (ev : Nat → AsyncEvent) (m : Nat) (r : HttpResponse), 1 ≤ m →
      ev 0 = .resp r → r.status = 403 →
      async_search_legacy_obituary ev m = (.bail, [])) ∧
    ∀ (env : Nat → Nat → AsyncEvent) (m : Nat) (batch : List (Nat × Row)) (k : Nat)
        (order : List Nat) (st : SearcherState) (t : Nat × Row),
      (batchTasks batch).get? k = some t →
      (async_search_legacy_obituary (env t.1) m).1 = .bail →
      process_batch env m batch (k :: order) st = process_batch env m batch order st := by
  refine ⟨?_, ?_, ?_, ?_, ?_⟩
  · intro ev m r hm hev hst
    cases m with
    | zero => omega
    | succ m0 =>
      unfold search_legacy_obituary
      simp [searchSyncAux, hev, hst]
  · intro ev m r hm hev h429 h403 hcap
    cases m with
    | zero => omega
    | succ m0 =>
      unfold search_legacy_obituary
      simp [searchSyncAux, hev, h429, h403, hcap]
  · intro env m k idx row rest st msg sl h1 h2 h3 h4
    exact processLoop_raised_stops env m k idx row rest st msg sl h1 h2 h3 h4
  · intro ev m r hm hev hst
    cases m with
    | zero => omega
    | succ m0 =>
      unfold async_search_legacy_obituary
      simp [searchAsyncAux, hev, hst]
  · intro env m batch k order st t hg hb
    exact process_batch_bail_skip env m batch k order st t hg hb

def rowC1w : Row := ⟨"Ellen", "Brook", "06/15/2025"⟩

/-- Witness instantiating every part of the amended C1 theorem on concrete
streams: a constant-403 stream, a 500-with-captcha-body stream, a processing
list whose head row is blocked, and a one-task batch whose task bails. -/
theorem C1_amended_blocked_terminal_in_sync_only_witness :
    search_legacy_obituary (fun _ => .resp ⟨403, "", 0⟩) 3 =
      (.raised "Blocked by server", []) ∧
    search_legacy_obituary (fun _ => .resp ⟨500, "Captcha ahead", 0⟩) 3 =
      (.raised "Captcha required", []) ∧
    processLoop (fun _ _ => .resp ⟨403, "", 0⟩) 3 0 [(0, rowC1w), (1, rowC1w)]
        ⟨0, 0, [], [], []⟩ =
      (false,
        { (⟨0, 0, [], [], []⟩ : ProcSt) with
          attempted := [0],
          saves := [⟨0, 0, 0, some "Blocked by server", false⟩] }) ∧
    async_search_legacy_obituary (fun _ => .resp ⟨403, "", 0⟩) 3 = (.bail, []) ∧
    process_batch (fun _ _ => .resp ⟨403, "", 0⟩) 3 [(0, rowC1w)] [0] ⟨0, 0, []⟩ =
      process_batch (fun _ _ => .resp ⟨403, "", 0⟩) 3 [(0, rowC1w)] [] ⟨0, 0, []⟩ :=
  ⟨C1_amended_blocked_terminal_in_sync_only.1 _ 3 ⟨403, "", 0⟩ (by decide) rfl rfl,
   C1_amended_blocked_terminal_in_sync_only.2.1 _ 3 ⟨500, "Captcha ahead", 0⟩
     (by decide) rfl (by decide) (by decide) (by decide),
   C1_amended_blocked_terminal_in_sync_only.2.2.1 _ 3 0 0 rowC1w _ _ "Blocked by server"
     [] (by decide) (by decide) (by decide) (by decide),
   C1_amended_blocked_terminal_in_sync_only.2.2.2.1 _ 3 ⟨403, "", 0⟩ (by decide) rfl rfl,
   C1_amended_blocked_terminal_in_sync_only.2.2.2.2 _ 3 [(0, rowC1w)] 0 [] ⟨0, 0, []⟩
     (0, rowC1w) (by decide) (by decide)⟩

def rowC4a : Row := ⟨"Frank", "Stone", "06/15/2025"⟩

def rowC4b : Row := ⟨"Grace", "Field", "06/15/2025"⟩

/-- Row 0 is rate-limited on every attempt; row 1 succeeds with one hit. -/
def envC4par : Nat → Nat → AsyncEvent := fun idx _ =>
  if idx = 0 then .resp ⟨429, "", 0⟩ else .resp ⟨200, "", 1⟩

/-- Claim C4 is false on the code: in `main-parallel.py`, exhausting the 429
retries (with backoff sleeps 30, 60, 120) does not surface a `RateLimited`
error: the task returns the not-found default, and the run continues — row 1
is still fetched, counted and appended, with no error recorded anywhere. -/
theorem C4_counterexample_parallel_429_downgraded :
    async_search_legacy_obituary (envC4par 0) 3 = (.bail, [30, 60, 120]) ∧
    process_batch envC4par 3 [(0, rowC4a), (1, rowC4b)] [0, 1] ⟨0, 0, []⟩ =
      ⟨1, 1, [rowC4b]⟩ := by
  refine ⟨by decide, by decide⟩

/-- Claim C4, amended: in `main.py`, 429 responses are retried with
exponential-backoff sleeps `2 ^ attempt * 60` and, at the retry ceiling, the
fetch raises `Rate limited - max retries exceeded` — never downgraded to
not-found — which `process_licenses` treats as run-stopping (error saved,
no further rows).  In `main-parallel.py`, 429 responses are retried with
backoff `2 ^ attempt * 30`, sleeping even after the final attempt, and
exhaustion returns the not-found default with no error and no run stop. -/
theorem C4_amended_rate_limit_sync_raises_parallel_downgrades :
    (∀ (ev : Nat → HttpEvent) (m : Nat), 1 ≤ m →
      (∀ a, a < m → ∃ r, ev a = .resp r ∧ r.status = 429) →
      search_legacy_obituary ev m =
        (.raised "Rate limited - max retries exceeded",
          (List.range (m - 1)).map (fun a => 2 ^ a * 60))) ∧
    (∀ (env : Nat → Nat → HttpEvent) (m k idx : Nat) (row : Row)
        (rest : List (Nat × Row)) (st : ProcSt) (sl : List Nat),
      ¬ idx < k → passes_expiration_filter row.expirationDate = true →
      namesOk row = true →
      search_legacy_obituary (env idx) m =
        (.raised "Rate limited - max retries exceeded", sl) →
      processLoop env m k ((idx, row) :: rest) st =
        (false,
          { st with
            attempted := st.attempted ++ [idx],
            saves := st.saves ++
              [⟨idx, st.totalFound, st.totalProcessed,
                some "Rate limited - max retries exceeded", false⟩] })) ∧
    ∀ (ev : Nat → AsyncEvent) (m : Nat),
      (∀ a, a < m → ∃ r, ev a = .resp r ∧ r.status = 429) →
      async_search_legacy_obituary ev m =
        (.bail, (List.range m).map (fun a => 2 ^ a * 30)) := by
  refine ⟨?_, ?_, ?_⟩
  · intro ev m hm h
    unfold search_legacy_obituary
    rw [searchSyncAux_rate_limited ev m 0 (fun a ha1 ha2 => h a (by omega)) hm,
      List.range_eq_range']
  · intro env m k idx row rest st sl h1 h2 h3 h4
    exact processLoop_raised_stops env m k idx row rest st _ sl h1 h2 h3 h4
  · intro ev m h
    unfold async_search_legacy_obituary
    rw [searchAsyncAux_rate_limited ev m 0 (fun a ha1 ha2 => h a (by omega)),
      List.range_eq_range']

def rowC4w : Row := ⟨"Henry", "Lake", "06/15/2025"⟩

/-- Witness instantiating the amended C4 theorem on constant-429 streams
with three retries: the synchronous fetch raises after backoff sleeps
60, 120; the processing loop stops with the error saved; the parallel fetch
bails after backoff sleeps 30, 60, 120. -/
theorem C4_amended_rate_limit_witness :
    search_legacy_obituary (fun _ => .resp ⟨429, "", 0⟩) 3 =
      (.raised "Rate limited - max retries exceeded", [60, 120]) ∧
    processLoop (fun _ _ => .resp ⟨429, "", 0⟩) 3 0 [(0, rowC4w), (1, rowC4w)]
        ⟨0, 0, [], [], []⟩ =
      (false,
        { (⟨0, 0, [], [], []⟩ : ProcSt) with
          attempted := [0],
          saves := [⟨0, 0, 0, some "Rate limited - max retries exceeded", false⟩] }) ∧
    async_search_legacy_obituary (fun _ => .resp ⟨429, "", 0⟩) 3 =
      (.bail, [30, 60, 120]) :=
  ⟨by
    have h := C4_amended_rate_limit_sync_raises_parallel_downgrades.1
      (fun _ => .resp ⟨429, "", 0⟩) 3 (by decide)
      (fun a _ => ⟨⟨429, "", 0⟩, rfl, rfl⟩)
    simpa using h,
   C4_amended_rate_limit_sync_raises_parallel_downgrades.2.1 _ 3 0 0 rowC4w _ _ [60, 120]
     (by decide) (by decide) (by decide) (by decide),
   by
    have h := C4_amended_rate_limit_sync_raises_parallel_downgrades.2.2
      (fun _ => .resp ⟨429, "", 0⟩) 3 (fun a _ => ⟨⟨429, "", 0⟩, rfl, rfl⟩)
    simpa using h⟩

/-- Claim C8: a non-429, non-403, non-captcha, non-200 status, or a
transport/timeout error, is retried with a fixed 5-second sleep up to the
ceiling, and on exhaustion the fetch returns the not-found default rather
than an error; the synchronous loop then continues with the next row, and a
parallel bailing task leaves the batch state unchanged, its siblings
proceeding. -/
theorem C8_soft_failures_fail_open :
    (∀ (ev : Nat → HttpEvent) (m : Nat),
      (∀ a, a < m → softFailEvent (ev a) = true) →
      search_legacy_obituary ev m = (.result false, List.replicate (m - 1) 5)) ∧
    (∀ (env : Nat → Nat → HttpEvent) (m k idx : Nat) (row : Row)
        (rest : List (Nat × Row)) (st : ProcSt) (sl : List Nat),
      ¬ idx < k → passes_expiration_filter row.expirationDate = true →
      namesOk row = true →
      search_legacy_obituary (env idx) m = (.result false, sl) →
      processLoop env m k ((idx, row) :: rest) st =
        processLoop env m k rest
          { totalFound := st.totalFound,
            totalProcessed := st.totalProcessed + 1,
            written := st.written,
            saves :=
              if (st.totalProcessed + 1) % 10 = 0 then
                st.saves ++ [⟨idx, st.totalFound, st.totalProcessed + 1, none, false⟩]
              else st.saves,
            attempted := st.attempted ++ [idx] }) ∧
    (∀ (ev : Nat → AsyncEvent) (m : Nat),
      (∀ a, a < m → softFailAsyncEvent (ev a) = true) →
      async_search_legacy_obituary ev m = (.bail, List.replicate (m - 1) 5)) ∧
    ∀ (env : Nat → Nat → AsyncEvent) (m : Nat) (batch : List (Nat × Row)) (k : Nat)
        (order : List Nat) (st : SearcherState) (t : Nat × Row),
      (batchTasks batch).get? k = some t →
      (async_search_legacy_obituary (env t.1) m).1 = .bail →
      process_batch env m batch (k :: order) st = process_batch env m batch order st := by
  refine ⟨?_, ?_, ?_, ?_⟩
  · intro ev m h
    exact searchSyncAux_soft_fail ev m 0 (fun a ha1 ha2 => h a (by omega))
  · intro env m k idx row rest st sl h1 h2 h3 h4
    exact processLoop_soft_continue env m k idx row rest st sl h1 h2 h3 h4
  · intro ev m h
    exact searchAsyncAux_soft_fail ev m 0 (fun a ha1 ha2 => h a (by omega))
  · intro env m batch k order st t hg hb
    exact process_batch_bail_skip env m batch k order st t hg hb

def rowC8w : Row := ⟨"Irene", "Walsh", "06/15/2025"⟩

/-- Witness instantiating the C8 theorem on a constant-500 stream with
three retries: two 5-second sleeps, a not-found return, the loop advancing
to the next row, and a bailing parallel task skipped by its batch. -/
theorem C8_soft_failures_fail_open_witness :
    search_legacy_obituary (fun _ => .resp ⟨500, "server error", 0⟩) 3 =
      (.result false, [5, 5]) ∧
    processLoop (fun _ _ => .resp ⟨500, "server error", 0⟩) 3 0
        [(0, rowC8w)] ⟨0, 0, [], [], []⟩ =
      processLoop (fun _ _ => .resp ⟨500, "server error", 0⟩) 3 0 []
        { totalFound := 0, totalProcessed := 1, written := [],
          saves := if (0 + 1) % 10 = 0 then
              [] ++ [⟨0, 0, 0 + 1, none, false⟩]
            else [],
          attempted := [] ++ [0] } ∧
    async_search_legacy_obituary (fun _ => .resp ⟨500, "server error", 0⟩) 3 =
      (.bail, [5, 5]) ∧
    process_batch (fun _ _ => .resp ⟨500, "server error", 0⟩) 3 [(0, rowC8w)] [0]
        ⟨0, 0, []⟩ =
      process_batch (fun _ _ => .resp ⟨500, "server error", 0⟩) 3 [(0, rowC8w)] []
        ⟨0, 0, []⟩ :=
  ⟨by
    have h := C8_soft_failures_fail_open.1 (fun _ => .resp ⟨500, "server error", 0⟩) 3
      (fun _ _ => rfl)
    simpa using h,
   C8_soft_failures_fail_open.2.1 _ 3 0 0 rowC8w [] ⟨0, 0, [], [], []⟩ [5, 5]
     (by decide) (by decide) (by decide) (by decide),
   by
    have h := C8_soft_failures_fail_open.2.2.1 (fun _ => .resp ⟨500, "server error", 0⟩) 3
      (fun _ _ => rfl)
    simpa using h,
   C8_soft_failures_fail_open.2.2.2 _ 3 [(0, rowC8w)] 0 [] ⟨0, 0, []⟩ (0, rowC8w)
     (by decide) (by decide)⟩

end LegacyObit
